import Mathlib

/-!
Verification of the loan-amortization core of the Simulador de Préstamos
repository (src/src/App.jsx, with src/unnamed/part_001 as the variant that
declares the loop-local `actualMonthlyPaymentRecorded`).

The JavaScript numbers are modelled as exact rationals (ℚ).  A value that can
be `NaN` at a validation boundary (the result of `parseFloat` / `parseInt` on
raw input state) is modelled as `Option ℚ` / `Option ℤ`, with `none` playing
the role of `NaN`; every JavaScript comparison against `NaN` is false, which
is made explicit at each use site.  The presentational layer (React state,
formatting, chart markup) is out of scope per the spec; the chart series
produced next to the schedule duplicates the schedule's numeric fields and is
not modelled separately.
-/

namespace LoanSim

/-- An extraordinary payment, `{ id: Date.now(), amount, month }` in the
source.  `amount` is the parsed numeric amount, `month` the parsed 1-based
month index (`parseInt` result, hence an integer). -/
structure ExtraPayment where
  id : Nat
  amount : ℚ
  month : ℤ
deriving Repr, DecidableEq

/-- One row of the amortization table, as pushed onto `schedule` in
`calculateAmortization` (App.jsx lines 215-222). -/
structure ScheduleRow where
  month : ℤ
  monthlyPayment : ℚ
  principalPayment : ℚ
  interestPayment : ℚ
  remainingBalance : ℚ
  extraPaymentApplied : Option ℚ
deriving Repr, DecidableEq

/-- The outputs of `calculateAmortization`: the schedule state, the local
total-interest accumulator, and the `totalInterestSaved` state
(baseline − paid).  The chart series mirrors the schedule and is omitted. -/
structure EngineResult where
  schedule : List ScheduleRow
  totalInterestPaid : ℚ
  totalInterestSaved : ℚ
deriving Repr, DecidableEq

/-- The fixed monthly payment (App.jsx lines 149-153 and 96-100):
`principal / totalMonths` when the monthly rate is zero, otherwise the
annuity formula `principal * (r / (1 - (1+r)^(-totalMonths)))`. -/
def originalMonthlyPayment (principal monthlyRate : ℚ) (totalMonths : ℤ) : ℚ :=
  if monthlyRate = 0 then principal / (totalMonths : ℚ)
  else principal * (monthlyRate / (1 - (1 + monthlyRate) ^ (-totalMonths)))

/-- Loop body of `calculateTotalInterestWithoutExtraPayments`
(App.jsx lines 105-121), iterated at most `totalMonths` times: break once the
balance is within the 0.01 epsilon, accrue interest on the current balance,
floor the principal component at 0 and cap it at the remaining balance. -/
def baselineLoop (monthlyRate monthlyPayment : ℚ) :
    ℕ → ℚ → ℚ → ℚ
  | 0, _, totalInterest => totalInterest
  | n + 1, remainingBalance, totalInterest =>
    if remainingBalance ≤ 1 / 100 then totalInterest
    else
      let interestPayment := remainingBalance * monthlyRate
      let principalPayment0 := monthlyPayment - interestPayment
      let principalPayment1 := if principalPayment0 < 0 then 0 else principalPayment0
      let principalPayment2 :=
        if remainingBalance < principalPayment1 then remainingBalance else principalPayment1
      baselineLoop monthlyRate monthlyPayment n
        (remainingBalance - principalPayment2) (totalInterest + interestPayment)

/-- `calculateTotalInterestWithoutExtraPayments` (App.jsx lines 87-123), the
baseline `computeBaseline` of the spec.  `none` models a `NaN` argument.  Note
the source does not test `isNaN(totalMonths)`: a `NaN` term passes the guard
(`NaN <= 0` is false) but the `for` loop guard `i <= NaN` is also false, so
the function still returns the accumulator's initial value `0`. -/
def calculateTotalInterestWithoutExtraPayments
    (principal annualRatePercentage : Option ℚ) (totalMonths : Option ℤ) : ℚ :=
  match principal, annualRatePercentage, totalMonths with
  | some p, some ratePct, some tm =>
    if p ≤ 0 ∨ tm ≤ 0 then 0
    else
      let monthlyRate := ratePct / 100 / 12
      let monthlyPayment := originalMonthlyPayment p monthlyRate tm
      baselineLoop monthlyRate monthlyPayment tm.toNat p 0
  | some _, some _, none => 0
  | _, _, _ => 0

/-- The inner `while` of the engine (App.jsx lines 176-184): consume the
leading pending payments whose month equals the current month `i`; each one
is added (at its nominal amount) to the applied accumulator and the balance is
reduced, floored at 0, but only while the balance exceeds the 0.01 epsilon;
the loop breaks — leaving the rest of the month's queue unconsumed — as soon
as the balance falls to the epsilon or below.
Returns (balance, appliedSoFar, remaining queue). -/
def applyExtras (i : ℤ) :
    List ExtraPayment → ℚ → ℚ → ℚ × ℚ × List ExtraPayment
  | [], balance, applied => (balance, applied, [])
  | ep :: rest, balance, applied =>
    if ep.month = i then
      let applied1 := if 1 / 100 < balance then applied + ep.amount else applied
      let balance1 := if 1 / 100 < balance then max 0 (balance - ep.amount) else balance
      if balance1 ≤ 1 / 100 then (balance1, applied1, rest)
      else applyExtras i rest balance1 applied1
    else (balance, applied, ep :: rest)

/-- One iteration of the engine's month loop (App.jsx lines 170-230), after
the loop guard has passed: apply the month's extra payments, then either
record a zero row (loan already paid off within the epsilon — note the row
keeps the residual balance, it is not zeroed), or recompute interest on the
post-extra-payment balance, clamp the final payment, and clamp any negative
recorded components to 0 (the balance update itself is not re-clamped).
Returns (row, new balance, remaining payment queue). -/
def monthStep (monthlyRate originalPay : ℚ) (i : ℤ) (balance : ℚ)
    (pending : List ExtraPayment) : ScheduleRow × ℚ × List ExtraPayment :=
  let step := applyExtras i pending balance 0
  let balance1 := step.1
  let applied := step.2.1
  let pending1 := step.2.2
  let extraOpt : Option ℚ := if 0 < applied then some applied else none
  if balance1 ≤ 1 / 100 then
    (⟨i, 0, 0, 0, balance1, extraOpt⟩, balance1, pending1)
  else
    let interest := balance1 * monthlyRate
    let principal := originalPay - interest
    if balance1 + 1 / 100 < principal then
      let principalClamped := balance1
      let recordedPay := principalClamped + interest
      (⟨i, recordedPay,
        if principalClamped < 0 then 0 else principalClamped,
        if interest < 0 then 0 else interest, 0, extraOpt⟩, 0, pending1)
    else
      (⟨i, originalPay,
        if principal < 0 then 0 else principal,
        if interest < 0 then 0 else interest,
        balance1 - principal, extraOpt⟩, balance1 - principal, pending1)

/-- The engine's month loop (App.jsx line 170): fuel counts the remaining
iterations of `for (i = 1; i <= 2*totalMonths+1; ...)`; the loop also stops
when the balance reaches the epsilon, and breaks right after pushing a row
once the new balance is at or below the epsilon.
Returns (schedule, accumulated interest paid). -/
def runMonths (monthlyRate originalPay : ℚ) :
    ℕ → ℕ → ℚ → List ExtraPayment → ℚ → List ScheduleRow × ℚ
  | 0, _, _, _, acc => ([], acc)
  | fuel + 1, i, balance, pending, acc =>
    if 1 / 100 < balance then
      let step := monthStep monthlyRate originalPay (i : ℤ) balance pending
      let row := step.1
      let balance2 := step.2.1
      let pending1 := step.2.2
      let acc1 := acc + row.interestPayment
      if balance2 ≤ 1 / 100 then ([row], acc1)
      else
        let rest := runMonths monthlyRate originalPay fuel (i + 1) balance2 pending1 acc1
        (row :: rest.1, rest.2)
    else ([], acc)

/-- The engine sorts the extra payments by month before applying them
(App.jsx line 165, `[...extraPayments].sort((a, b) => a.month - b.month)`).
JavaScript's sort is stable, and every stable sort on the same comparator
produces the same list, so the stable `insertionSort` is a faithful model. -/
def sortExtraPayments (l : List ExtraPayment) : List ExtraPayment :=
  l.insertionSort (fun a b => a.month ≤ b.month)

/-- `calculateAmortization` (App.jsx lines 129-239), the spec's
`computeSchedule`.  Inputs are the parsed loan amount (`parseFloat`), parsed
annual rate percentage (`parseFloat`), parsed term (`parseInt`) and the term
unit; `none` models a `NaN` parse.  Invalid inputs reset the outputs. -/
def calculateAmortization (loanAmount annualInterestRate : Option ℚ)
    (loanTerm : Option ℤ) (unitYears : Bool)
    (extraPayments : List ExtraPayment) : EngineResult :=
  match loanAmount, annualInterestRate, loanTerm with
  | some principal, some ratePct, some t =>
    let initialTotalMonths : ℤ := if unitYears then t * 12 else t
    if principal ≤ 0 ∨ initialTotalMonths ≤ 0 then ⟨[], 0, 0⟩
    else
      let monthlyRate := ratePct / 100 / 12
      let originalPay := originalMonthlyPayment principal monthlyRate initialTotalMonths
      let baselineTotalInterest :=
        calculateTotalInterestWithoutExtraPayments (some principal) (some ratePct)
          (some initialTotalMonths)
      let sorted := sortExtraPayments extraPayments
      let run := runMonths monthlyRate originalPay
        (initialTotalMonths * 2 + 1).toNat 1 principal sorted 0
      ⟨run.1, run.2, baselineTotalInterest - run.2⟩
  | _, _, _ => ⟨[], 0, 0⟩

/-- Models the engine exactly as written in src/src/App.jsx, where
`actualMonthlyPaymentRecorded` (lines 191, 200, 203) is assigned without ever
being declared.  App.jsx is an ES module, hence strict-mode code, where an
assignment to an undeclared identifier throws a `ReferenceError`.  Every path
through the loop body reaches one of those assignments, so the first loop
iteration throws whenever the loop is entered (valid inputs with a balance
above the 0.01 epsilon); src/unnamed/part_001 adds the declaration under a
`FIX` comment. -/
def calculateAmortizationModuleStrict (loanAmount annualInterestRate : Option ℚ)
    (loanTerm : Option ℤ) (unitYears : Bool)
    (extraPayments : List ExtraPayment) : Except String EngineResult :=
  match loanAmount, annualInterestRate, loanTerm with
  | some principal, some ratePct, some t =>
    let initialTotalMonths : ℤ := if unitYears then t * 12 else t
    if principal ≤ 0 ∨ initialTotalMonths ≤ 0 then .ok ⟨[], 0, 0⟩
    else if 1 / 100 < principal then
      .error "ReferenceError: actualMonthlyPaymentRecorded is not defined"
    else
      .ok ⟨[], 0,
        calculateTotalInterestWithoutExtraPayments (some principal) (some ratePct)
          (some initialTotalMonths)⟩
  | _, _, _ => .ok ⟨[], 0, 0⟩

/-- Rejection message for an invalid extra-payment amount
(App.jsx line 255). -/
def invalidAmountMessage : String :=
  "Por favor, ingresa un monto válido para el abono extraordinario."

/-- Rejection message for an invalid extra-payment month (App.jsx line 260);
the interpolated bound renders as NaN when the term did not parse. -/
def invalidMonthMessage (initialTotalMonths : Option ℤ) : String :=
  "Por favor, ingresa un mes válido (entre 1 y " ++
    (match initialTotalMonths with
     | some n => toString (n * 2 + 1)
     | none => "NaN") ++ ")."

/-- `handleAddExtraPayment` (App.jsx lines 244-268).  `none` models a `NaN`
amount or month or an unparsable term; `freshId` stands for `Date.now()`.
The JavaScript guard is `isNaN(month) || month <= 0 ||
month > initialTotalMonths * 2 + 1`; when the term is `NaN` the last
comparison is a comparison against `NaN` and therefore false, which the
`none` branch below makes explicit.  Returns the new payment list and the
message state (set to the empty string on success). -/
def handleAddExtraPayment (newExtraPaymentAmount : Option ℚ)
    (newExtraPaymentMonth : Option ℤ) (loanTerm : Option ℤ) (unitYears : Bool)
    (freshId : ℕ) (prev : List ExtraPayment) : List ExtraPayment × String :=
  let initialTotalMonths : Option ℤ :=
    loanTerm.map fun t => if unitYears then t * 12 else t
  match newExtraPaymentAmount with
  | none => (prev, invalidAmountMessage)
  | some amount =>
    if amount ≤ 0 then (prev, invalidAmountMessage)
    else
      match newExtraPaymentMonth with
      | none => (prev, invalidMonthMessage initialTotalMonths)
      | some month =>
        if month ≤ 0 then (prev, invalidMonthMessage initialTotalMonths)
        else if (match initialTotalMonths with
                 | none => false
                 | some n => decide (n * 2 + 1 < month)) then
          (prev, invalidMonthMessage initialTotalMonths)
        else
          (prev ++ [⟨freshId, amount, month⟩], "")

/-- The ideal annuity balance path: starting from the principal, each month
multiplies the balance by (1 + monthly rate) and subtracts the fixed payment.
This is the mathematical trajectory the engine's non-clamped regular step
follows; it is used as the dominating sequence in the payoff proof. -/
def annuityBalance (p r pay : ℚ) : ℕ → ℚ
  | 0 => p
  | k + 1 => annuityBalance p r pay k * (1 + r) - pay

/-! Helper lemmas about the annuity algebra. -/

lemma annuityBalance_eq (p r pay : ℚ) (hr : r ≠ 0) (k : ℕ) :
    annuityBalance p r pay k = (p - pay / r) * (1 + r) ^ k + pay / r := by
  induction k with
  | zero => simp [annuityBalance]
  | succ k ih =>
    rw [annuityBalance, ih, pow_succ]
    field_simp
    ring

lemma annuityBalance_payoff_pos (p r : ℚ) (hr : 0 < r) (n : ℕ) (hn : n ≠ 0) :
    annuityBalance p r (p * (r / (1 - (1 + r) ^ (-(n : ℤ))))) n = 0 := by
  have h1r : (0:ℚ) < 1 + r := by linarith
  have hA1 : 1 < (1 + r) ^ n := one_lt_pow₀ (by linarith) hn
  have hA0 : (0:ℚ) < (1 + r) ^ n := by positivity
  have hzpow : (1 + r) ^ (-(n : ℤ)) = ((1 + r) ^ n)⁻¹ := by
    rw [zpow_neg, zpow_natCast]
  have hDne : ((1 + r) ^ n - 1) ≠ 0 := ne_of_gt (by linarith)
  rw [annuityBalance_eq _ _ _ (ne_of_gt hr), hzpow]
  have hinv : 1 - ((1 + r) ^ n)⁻¹ = ((1 + r) ^ n - 1) / (1 + r) ^ n := by field_simp
  rw [hinv]
  field_simp
  ring

lemma annuityBalance_payoff_zero (p : ℚ) (n : ℕ) (hn : n ≠ 0) :
    annuityBalance p 0 (p / ((n : ℤ) : ℚ)) n = 0 := by
  have hkey : ∀ k, annuityBalance p 0 (p / ((n : ℤ) : ℚ)) k
      = p - k * (p / ((n : ℤ) : ℚ)) := by
    intro k
    induction k with
    | zero => simp [annuityBalance]
    | succ k ih =>
      rw [annuityBalance, ih]
      push_cast
      ring
  rw [hkey n]
  have hne : ((n : ℤ) : ℚ) ≠ 0 := by
    push_cast
    exact_mod_cast Nat.cast_ne_zero.mpr hn
  field_simp

lemma annuityBalance_originalPay (p r : ℚ) (hr : 0 ≤ r) (n : ℕ) (hn : n ≠ 0) :
    annuityBalance p r (originalMonthlyPayment p r (n : ℤ)) n = 0 := by
  rcases eq_or_lt_of_le hr with h0 | hpos
  · rw [originalMonthlyPayment, ← h0, if_pos rfl]
    exact annuityBalance_payoff_zero p n hn
  · rw [originalMonthlyPayment, if_neg (ne_of_gt hpos)]
    exact annuityBalance_payoff_pos p r hpos n hn

lemma originalMonthlyPayment_bounds (p r : ℚ) (hp : 0 < p) (hr : 0 ≤ r)
    (n : ℕ) (hn : n ≠ 0) :
    p * r ≤ originalMonthlyPayment p r (n : ℤ) ∧
    0 < originalMonthlyPayment p r (n : ℤ) := by
  rcases eq_or_lt_of_le hr with h0 | hpos
  · rw [originalMonthlyPayment, ← h0, if_pos rfl]
    have hnq : (0:ℚ) < ((n : ℤ) : ℚ) := by
      push_cast
      exact_mod_cast Nat.pos_of_ne_zero hn
    constructor
    · rw [mul_zero]
      positivity
    · positivity
  · rw [originalMonthlyPayment, if_neg (ne_of_gt hpos)]
    have h1r : (0:ℚ) < 1 + r := by linarith
    have hA1 : 1 < (1 + r) ^ n := one_lt_pow₀ (by linarith) hn
    have hA0 : (0:ℚ) < (1 + r) ^ n := by positivity
    have hzpow : (1 + r) ^ (-(n : ℤ)) = ((1 + r) ^ n)⁻¹ := by
      rw [zpow_neg, zpow_natCast]
    rw [hzpow]
    have hinvlt : ((1 + r) ^ n)⁻¹ < 1 := by
      rw [inv_lt_one_iff₀]
      right
      exact hA1
    have hinvpos : (0:ℚ) < ((1 + r) ^ n)⁻¹ := by positivity
    have hD : 0 < 1 - ((1 + r) ^ n)⁻¹ := by linarith
    constructor
    · have hdiv : r ≤ r / (1 - ((1 + r) ^ n)⁻¹) := by
        rw [le_div_iff₀ hD]
        nlinarith
      nlinarith
    · positivity

/-! Helper lemmas about the engine loop. -/

lemma applyExtras_fst_le (i : ℤ) :
    ∀ (pending : List ExtraPayment) (balance applied : ℚ),
      0 ≤ balance → (∀ ep ∈ pending, 0 ≤ ep.amount) →
      (applyExtras i pending balance applied).1 ≤ balance ∧
      0 ≤ (applyExtras i pending balance applied).1
  | [], b, a, hb, _ => by
    simp only [applyExtras]
    exact ⟨le_refl b, hb⟩
  | ep :: rest, b, a, hb, hall => by
    have hamt : 0 ≤ ep.amount := hall ep (by simp)
    simp only [applyExtras]
    split
    · by_cases hgt : 1 / 100 < b
      · simp only [if_pos hgt]
        have hb1 : max 0 (b - ep.amount) ≤ b := max_le hb (by linarith)
        have hb1n : (0:ℚ) ≤ max 0 (b - ep.amount) := le_max_left _ _
        split
        · exact ⟨hb1, hb1n⟩
        · have ih := applyExtras_fst_le i rest (max 0 (b - ep.amount)) (a + ep.amount)
            hb1n (fun x hx => hall x (by simp [hx]))
          exact ⟨le_trans ih.1 hb1, ih.2⟩
      · simp only [if_neg hgt]
        split
        · exact ⟨le_refl b, hb⟩
        · exact applyExtras_fst_le i rest b a hb (fun x hx => hall x (by simp [hx]))
    · exact ⟨le_refl b, hb⟩

lemma applyExtras_mem (i : ℤ) :
    ∀ (pending : List ExtraPayment) (balance applied : ℚ) (x : ExtraPayment),
      x ∈ (applyExtras i pending balance applied).2.2 → x ∈ pending
  | [], b, a, x, hx => by simp [applyExtras] at hx
  | ep :: rest, b, a, x, hx => by
    simp only [applyExtras] at hx
    by_cases hm : ep.month = i
    · simp only [if_pos hm] at hx
      by_cases hgt : (1:ℚ) / 100 < b
      · simp only [if_pos hgt] at hx
        by_cases hb1 : max 0 (b - ep.amount) ≤ 1 / 100
        · rw [if_pos hb1] at hx
          exact List.mem_cons_of_mem ep hx
        · rw [if_neg hb1] at hx
          exact List.mem_cons_of_mem ep (applyExtras_mem i rest _ _ x hx)
      · simp only [if_neg hgt] at hx
        by_cases hb1 : b ≤ 1 / 100
        · rw [if_pos hb1] at hx
          exact List.mem_cons_of_mem ep hx
        · rw [if_neg hb1] at hx
          exact List.mem_cons_of_mem ep (applyExtras_mem i rest _ _ x hx)
    · simp only [if_neg hm] at hx
      exact hx

lemma monthStep_spec (r pay P : ℚ) (i : ℤ) (b : ℚ) (pending : List ExtraPayment)
    (hr : 0 ≤ r) (hb : 0 ≤ b) (hbP : b ≤ P) (hpay : P * r ≤ pay)
    (hext : ∀ ep ∈ pending, 0 ≤ ep.amount) :
    (monthStep r pay i b pending).1.remainingBalance = (monthStep r pay i b pending).2.1 ∧
    (monthStep r pay i b pending).2.1 ≤ b ∧
    ((1:ℚ) / 100 < (monthStep r pay i b pending).2.1 →
      (monthStep r pay i b pending).2.1 ≤ b * (1 + r) - pay) ∧
    (∀ ep ∈ (monthStep r pay i b pending).2.2, ep ∈ pending) := by
  have hfle := applyExtras_fst_le i pending b 0 hb hext
  have hmem := applyExtras_mem i pending b 0
  set step := applyExtras i pending b 0 with hstep
  obtain ⟨b1, ap, pd⟩ := step
  simp only at hfle hmem
  have hb1r : b1 * r ≤ pay :=
    le_trans (mul_le_mul_of_nonneg_right (le_trans hfle.1 hbP) hr) hpay
  simp only [monthStep, ← hstep]
  split
  · refine ⟨rfl, hfle.1, ?_, hmem⟩
    dsimp only
    intro hgt
    rename_i hle
    exact absurd hgt (not_lt.mpr hle)
  · split
    · refine ⟨rfl, hb, ?_, hmem⟩
      dsimp only
      intro hgt
      norm_num at hgt
    · refine ⟨rfl, ?_, ?_, hmem⟩
      · dsimp only
        linarith [hfle.1, hb1r]
      · dsimp only
        intro _
        have hmul : b1 * (1 + r) ≤ b * (1 + r) :=
          mul_le_mul_of_nonneg_right hfle.1 (by linarith)
        ring_nf at hmul ⊢
        linarith

lemma beta_nonpos (r pay : ℚ) (β : ℕ → ℚ) (N : ℕ)
    (hr : 0 ≤ r) (hpaypos : 0 < pay)
    (hβrec : ∀ k, β (k + 1) = β k * (1 + r) - pay) (hβN : β N = 0) :
    ∀ j, N ≤ j → β j ≤ 0 := by
  intro j hj
  obtain ⟨d, rfl⟩ := Nat.exists_eq_add_of_le hj
  induction d with
  | zero => simp [hβN]
  | succ d ih =>
    have ih0 : β (N + d) ≤ 0 := ih (by omega)
    have h1 : 0 ≤ (-β (N + d)) * (1 + r) := mul_nonneg (by linarith) (by linarith)
    have hstep := hβrec (N + d)
    rw [show N + (d + 1) = N + d + 1 by omega, hstep]
    nlinarith

lemma runMonths_ne_nil (r pay : ℚ) (fuel i : ℕ) (b : ℚ)
    (pending : List ExtraPayment) (acc : ℚ) (hb : 1 / 100 < b) :
    (runMonths r pay (fuel + 1) i b pending acc).1 ≠ [] := by
  simp only [runMonths, if_pos hb]
  split <;> simp

lemma runMonths_invariant (r pay P : ℚ) (β : ℕ → ℚ) (N : ℕ)
    (hr : 0 ≤ r) (hpay : P * r ≤ pay) (hpaypos : 0 < pay)
    (hβrec : ∀ k, β (k + 1) = β k * (1 + r) - pay) (hβN : β N = 0) :
    ∀ (fuel : ℕ) (k : ℕ) (b : ℚ) (pending : List ExtraPayment) (acc : ℚ),
      0 ≤ b → b ≤ P → b ≤ β k → N + 1 ≤ k + fuel →
      (∀ ep ∈ pending, 0 ≤ ep.amount) →
      List.Chain' (fun x y => y.remainingBalance ≤ x.remainingBalance)
        (runMonths r pay fuel (k + 1) b pending acc).1 ∧
      (∀ row ∈ (runMonths r pay fuel (k + 1) b pending acc).1,
        row.remainingBalance ≤ b) ∧
      (∀ row ∈ (runMonths r pay fuel (k + 1) b pending acc).1.getLast?,
        row.remainingBalance ≤ 1 / 100) := by
  intro fuel
  induction fuel with
  | zero =>
    intro k b pending acc _ _ _ _ _
    simp [runMonths]
  | succ fuel IH =>
    intro k b pending acc hb0 hbP hbβ hfuel hext
    by_cases hb : 1 / 100 < b
    · have hspec := monthStep_spec r pay P ((k + 1 : ℕ) : ℤ) b pending hr hb0 hbP hpay hext
      rcases hstep : monthStep r pay ((k + 1 : ℕ) : ℤ) b pending with ⟨row, b2, pd⟩
      rw [hstep] at hspec
      simp only at hspec
      obtain ⟨hrowbal, hb2le, hb2rec, hsubset⟩ := hspec
      simp only [runMonths, if_pos hb, hstep]
      by_cases hb2 : b2 ≤ 1 / 100
      · rw [if_pos hb2]
        refine ⟨List.chain'_singleton _, ?_, ?_⟩
        · intro row' hrow'
          simp only [List.mem_singleton] at hrow'
          rw [hrow', hrowbal]
          exact hb2le
        · intro row' hrow'
          simp only [List.getLast?_singleton, Option.mem_def, Option.some.injEq] at hrow'
          rw [← hrow', hrowbal]
          exact hb2
      · rw [if_neg hb2]
        push_neg at hb2
        have hk : k < N := by
          by_contra hk'
          push_neg at hk'
          have := beta_nonpos r pay β N hr hpaypos hβrec hβN k hk'
          linarith
        have hb2β : b2 ≤ β (k + 1) := by
          have hrec := hb2rec hb2
          have hmul : b * (1 + r) ≤ β k * (1 + r) :=
            mul_le_mul_of_nonneg_right hbβ (by linarith)
          rw [hβrec k]
          linarith
        have IH' := IH (k + 1) b2 pd (acc + row.interestPayment)
          (by linarith) (le_trans hb2le hbP) hb2β (by omega)
          (fun x hx => hext x (hsubset x hx))
        obtain ⟨ihchain, ihbound, ihlast⟩ := IH'
        obtain ⟨fuel', rfl⟩ : ∃ f, fuel = f + 1 := ⟨fuel - 1, by omega⟩
        have hne : (runMonths r pay (fuel' + 1) (k + 1 + 1) b2 pd
            (acc + row.interestPayment)).1 ≠ [] :=
          runMonths_ne_nil r pay fuel' (k + 1 + 1) b2 pd _ hb2
        refine ⟨?_, ?_, ?_⟩
        · rw [List.chain'_cons']
          refine ⟨?_, ihchain⟩
          intro y hy
          have hymem := List.mem_of_mem_head? hy
          rw [hrowbal]
          exact ihbound y hymem
        · intro row' hrow'
          rcases List.mem_cons.mp hrow' with h | h
          · rw [h, hrowbal]
            exact hb2le
          · exact le_trans (ihbound row' h) hb2le
        · rcases hrest : (runMonths r pay (fuel' + 1) (k + 1 + 1) b2 pd
              (acc + row.interestPayment)).1 with _ | ⟨r0, rest'⟩
          · exact absurd hrest hne
          · rw [List.getLast?_cons_cons]
            rw [hrest] at ihlast
            exact ihlast
    · simp only [runMonths]
      rw [if_neg hb]
      simp

/-! Helper lemmas about the add-payment messages and the sort. -/

lemma invalidAmountMessage_ne_empty : invalidAmountMessage ≠ "" := by decide

lemma invalidMonthMessage_ne_empty (o : Option ℤ) : invalidMonthMessage o ≠ "" := by
  intro h
  have hd := congrArg String.data h
  simp only [invalidMonthMessage, String.data_append] at hd
  simp at hd

lemma sortExtraPayments_eq_of_perm (l₁ l₂ : List ExtraPayment) (hperm : l₁.Perm l₂)
    (hdistinct : l₁.Pairwise (fun a b => a.month ≠ b.month)) :
    sortExtraPayments l₁ = sortExtraPayments l₂ := by
  haveI htotal : IsTotal ExtraPayment (fun a b => a.month ≤ b.month) :=
    ⟨fun a b => le_total a.month b.month⟩
  haveI htrans : IsTrans ExtraPayment (fun a b => a.month ≤ b.month) :=
    ⟨fun a b c h1 h2 => le_trans h1 h2⟩
  haveI hanti : IsAntisymm ExtraPayment (fun a b => a.month < b.month) :=
    ⟨fun a b h1 h2 => absurd (lt_trans h1 h2) (lt_irrefl _)⟩
  have hsym : ∀ {x y : ExtraPayment}, x.month ≠ y.month → y.month ≠ x.month :=
    fun h => h.symm
  have hp₁ : (sortExtraPayments l₁).Perm l₁ := List.perm_insertionSort _ l₁
  have hp₂ : (sortExtraPayments l₂).Perm l₂ := List.perm_insertionSort _ l₂
  have hs₁ : (sortExtraPayments l₁).Sorted (fun a b => a.month ≤ b.month) :=
    List.sorted_insertionSort _ l₁
  have hs₂ : (sortExtraPayments l₂).Sorted (fun a b => a.month ≤ b.month) :=
    List.sorted_insertionSort _ l₂
  have hd₁ : (sortExtraPayments l₁).Pairwise (fun a b => a.month ≠ b.month) :=
    (hp₁.pairwise_iff hsym).mpr hdistinct
  have hd₂ : (sortExtraPayments l₂).Pairwise (fun a b => a.month ≠ b.month) :=
    (hp₂.pairwise_iff hsym).mpr ((hperm.pairwise_iff hsym).mp hdistinct)
  have hst₁ : (sortExtraPayments l₁).Sorted (fun a b => a.month < b.month) :=
    (hs₁.and hd₁).imp fun h => lt_of_le_of_ne h.1 h.2
  have hst₂ : (sortExtraPayments l₂).Sorted (fun a b => a.month < b.month) :=
    (hs₂.and hd₂).imp fun h => lt_of_le_of_ne h.1 h.2
  exact List.eq_of_perm_of_sorted (hp₁.trans (hperm.trans hp₂.symm)) hst₁ hst₂

/-! The claims. -/

set_option maxRecDepth 40000

/-- C1, counterexample: for principal 10000, totalMonths 12, rate 0 and a
single extra payment of 50000 at month 1, the row's extraPaymentApplied is
recorded as the nominal 50000, not the capacity-limited 10000 the claim
states: the engine accumulates ep.amount before capping the balance, so the
recorded applied amount exceeds the balance that was available. -/
theorem extra_overpay_claim_counterexample :
    (calculateAmortization (some 10000) (some 0) (some 12) false
        [⟨1, 50000, 1⟩]).schedule.map (fun row => row.extraPaymentApplied)
      = [some 50000] ∧ some (50000 : ℚ) ≠ some (10000 : ℚ) := by
  constructor
  · norm_num [calculateAmortization, sortExtraPayments, List.insertionSort,
      List.orderedInsert, originalMonthlyPayment,
      calculateTotalInterestWithoutExtraPayments, baselineLoop, runMonths, monthStep,
      applyExtras]
  · norm_num

/-- C1, amended: for principal 10000, totalMonths 12, rate 0 and a single
extra payment of 50000 at month 1, the schedule terminates at month 1 with
remainingBalance 0 (the balance reduction is capped at the available 10000 and
never goes negative), and the row's extraPaymentApplied records the nominal
50000, not the capacity-limited 10000. -/
theorem extra_overpay_terminates_with_nominal_record :
    (calculateAmortization (some 10000) (some 0) (some 12) false
        [⟨1, 50000, 1⟩]).schedule = [⟨1, 0, 0, 0, 0, some 50000⟩] := by
  norm_num [calculateAmortization, sortExtraPayments, List.insertionSort,
    List.orderedInsert, originalMonthlyPayment,
    calculateTotalInterestWithoutExtraPayments, baselineLoop, runMonths, monthStep,
    applyExtras]

/-- C2, counterexample: two extra payments in the same month (10000 and 5 on a
10000 zero-rate loan) are the same payment set in two different orders, yet
computeSchedule records extraPaymentApplied 10000 in one order and 10005 in
the other: the inner while-loop breaks as soon as the balance is paid off, so
the stable sort by month alone does not make the output order-independent. -/
theorem same_month_order_dependence_counterexample :
    ([⟨1, 10000, 1⟩, ⟨2, 5, 1⟩] : List ExtraPayment).Perm [⟨2, 5, 1⟩, ⟨1, 10000, 1⟩] ∧
    calculateAmortization (some 10000) (some 0) (some 12) false
        [⟨1, 10000, 1⟩, ⟨2, 5, 1⟩]
      ≠ calculateAmortization (some 10000) (some 0) (some 12) false
        [⟨2, 5, 1⟩, ⟨1, 10000, 1⟩] := by
  constructor
  · decide
  · norm_num [calculateAmortization, sortExtraPayments, List.insertionSort,
      List.orderedInsert, originalMonthlyPayment,
      calculateTotalInterestWithoutExtraPayments, baselineLoop, runMonths, monthStep,
      applyExtras, EngineResult.mk.injEq, ScheduleRow.mk.injEq]

/-- C2, amended: computeSchedule applied to two orderings of the same
ExtraPayment multiset produces identical output whenever no two payments share
a month; the sort by month then produces one and the same queue for every
insertion order, and all downstream computation agrees. (When payments share a
month the output can depend on the insertion order, see the counterexample.) -/
theorem schedule_order_independent_for_distinct_months
    (loanAmount annualInterestRate : Option ℚ) (loanTerm : Option ℤ)
    (unitYears : Bool) (l₁ l₂ : List ExtraPayment) (hperm : l₁.Perm l₂)
    (hdistinct : l₁.Pairwise (fun a b => a.month ≠ b.month)) :
    calculateAmortization loanAmount annualInterestRate loanTerm unitYears l₁
      = calculateAmortization loanAmount annualInterestRate loanTerm unitYears l₂ := by
  have hsort := sortExtraPayments_eq_of_perm l₁ l₂ hperm hdistinct
  rcases loanAmount with _ | p <;> rcases annualInterestRate with _ | rp <;>
    rcases loanTerm with _ | t <;> simp only [calculateAmortization, hsort]

/-- C2, witness: two orderings of two extra payments in distinct months give
the same engine output. -/
theorem schedule_order_independent_for_distinct_months_witness :
    calculateAmortization (some 100000) (some 5) (some 60) false
        [⟨1, 100, 2⟩, ⟨2, 50, 1⟩]
      = calculateAmortization (some 100000) (some 5) (some 60) false
        [⟨2, 50, 1⟩, ⟨1, 100, 2⟩] :=
  schedule_order_independent_for_distinct_months (some 100000) (some 5) (some 60)
    false _ _ (by decide) (by decide)

/-- C3, counterexample: with valid parameters (principal 10000 > 0,
totalMonths 12 > 0, rate 0) and one positive extra payment of 9999.995 at
month 1, the schedule's last row has remainingBalance 1/200 = 0.005, not 0:
the paid-off branch records the sub-epsilon residual balance unchanged. -/
theorem final_row_nonzero_residual_counterexample :
    (calculateAmortization (some 10000) (some 0) (some 12) false
        [⟨1, 1999999 / 200, 1⟩]).schedule.getLast?.map
        (fun row => row.remainingBalance) = some (1 / 200) ∧ ((1 : ℚ) / 200) ≠ 0 := by
  constructor
  · norm_num [calculateAmortization, sortExtraPayments, List.insertionSort,
      List.orderedInsert, originalMonthlyPayment,
      calculateTotalInterestWithoutExtraPayments, baselineLoop, runMonths, monthStep,
      applyExtras]
  · norm_num

/-- C3, amended: for every valid LoanParameters (principal > 0, positive term,
non-negative rate, as the data model requires) and every ExtraPayment set with
positive amounts, the produced schedule's remainingBalance is non-increasing
from each row to the next, and the last row's remainingBalance is at most the
engine's 0.01 epsilon — it need not equal 0, since an extra payment can leave
a sub-epsilon residue that the final row records unchanged. -/
theorem balance_monotone_and_final_within_epsilon (principal ratePct : ℚ) (t : ℤ)
    (unitYears : Bool) (extras : List ExtraPayment) (hp : 0 < principal)
    (hrate : 0 ≤ ratePct) (ht : 0 < (if unitYears then t * 12 else t))
    (hex : ∀ ep ∈ extras, 0 < ep.amount) :
    List.Chain' (fun x y => y.remainingBalance ≤ x.remainingBalance)
      (calculateAmortization (some principal) (some ratePct) (some t) unitYears
        extras).schedule ∧
    ∀ row ∈ (calculateAmortization (some principal) (some ratePct) (some t) unitYears
        extras).schedule.getLast?, row.remainingBalance ≤ 1 / 100 := by
  simp only [calculateAmortization]
  set itm : ℤ := if unitYears then t * 12 else t with hitm
  have ht' : 0 < itm := ht
  rw [if_neg (by push_neg; exact ⟨by linarith, by linarith⟩ :
    ¬(principal ≤ 0 ∨ itm ≤ 0))]
  set n : ℕ := itm.toNat with hn
  have hitmn : itm = (n : ℤ) := by omega
  have hne : n ≠ 0 := by omega
  have hr0 : (0:ℚ) ≤ ratePct / 100 / 12 := by positivity
  have hbounds := originalMonthlyPayment_bounds principal (ratePct / 100 / 12) hp hr0 n hne
  have hβN := annuityBalance_originalPay principal (ratePct / 100 / 12) hr0 n hne
  have hb1 : principal * (ratePct / 100 / 12) ≤
      originalMonthlyPayment principal (ratePct / 100 / 12) itm := by
    rw [hitmn]
    exact hbounds.1
  have hb2 : 0 < originalMonthlyPayment principal (ratePct / 100 / 12) itm := by
    rw [hitmn]
    exact hbounds.2
  have hβ : annuityBalance principal (ratePct / 100 / 12)
      (originalMonthlyPayment principal (ratePct / 100 / 12) itm) n = 0 := by
    rw [hitmn]
    exact hβN
  have hsortamt : ∀ ep ∈ sortExtraPayments extras, 0 ≤ ep.amount := by
    intro ep hep
    simp only [sortExtraPayments] at hep
    exact le_of_lt (hex ep ((List.perm_insertionSort _ extras).mem_iff.mp hep))
  have hmain := runMonths_invariant (ratePct / 100 / 12)
    (originalMonthlyPayment principal (ratePct / 100 / 12) itm) principal
    (annuityBalance principal (ratePct / 100 / 12)
      (originalMonthlyPayment principal (ratePct / 100 / 12) itm)) n
    hr0 hb1 hb2 (fun k => rfl) hβ
    (itm * 2 + 1).toNat 0 principal (sortExtraPayments extras) 0
    (le_of_lt hp) (le_refl principal) (le_refl principal) (by omega) hsortamt
  exact ⟨hmain.1, hmain.2.2⟩

/-- C3, witness: the amended property at principal 10000, rate 0, 12 months,
no extra payments. -/
theorem balance_monotone_and_final_within_epsilon_witness :
    List.Chain' (fun x y => y.remainingBalance ≤ x.remainingBalance)
      (calculateAmortization (some 10000) (some 0) (some 12) false []).schedule ∧
    ∀ row ∈ (calculateAmortization (some 10000) (some 0) (some 12) false
        []).schedule.getLast?, row.remainingBalance ≤ 1 / 100 :=
  balance_monotone_and_final_within_epsilon 10000 0 12 false [] (by norm_num)
    (by norm_num) (by norm_num) (by simp)

/-- C4: the engine of src/src/App.jsx assigns the undeclared
actualMonthlyPaymentRecorded inside the month loop; in strict-mode ES-module
code the first iteration of the loop therefore throws a ReferenceError on any
valid input whose balance exceeds the epsilon, contradicting the claim that no
exception ever propagates (src/unnamed/part_001 declares the variable under a
FIX comment, confirming the claim describes the intent). -/
theorem engine_assignment_throws_reference_error :
    calculateAmortizationModuleStrict (some 100000) (some 5) (some 5) true []
      = .error "ReferenceError: actualMonthlyPaymentRecorded is not defined" := by
  norm_num [calculateAmortizationModuleStrict]

/-- C5: whenever the post-extra-payment balance is above the epsilon and the
final-payment clamp does not fire (the regular principal component does not
overpay the balance), the recorded monthlyPayment of the month's row equals
the original fixed payment computed from the original principal and term —
whatever balance the earlier months and this month's extra payments left. -/
theorem monthly_payment_unchanged_above_clamp (principal monthlyRate : ℚ)
    (totalMonths : ℤ) (i : ℤ) (balance balance1 applied : ℚ)
    (pending rest : List ExtraPayment)
    (happly : applyExtras i pending balance 0 = (balance1, applied, rest))
    (hb1 : 1 / 100 < balance1)
    (hnoclamp : originalMonthlyPayment principal monthlyRate totalMonths
        - balance1 * monthlyRate ≤ balance1 + 1 / 100) :
    (monthStep monthlyRate (originalMonthlyPayment principal monthlyRate totalMonths)
        i balance pending).1.monthlyPayment
      = originalMonthlyPayment principal monthlyRate totalMonths := by
  simp only [monthStep, happly]
  rw [if_neg (not_le.mpr hb1), if_neg (not_lt.mpr hnoclamp)]

/-- C5, witness: month 1 of a zero-rate 120000/12 loan records the original
payment 10000. -/
theorem monthly_payment_unchanged_above_clamp_witness :
    (monthStep 0 (originalMonthlyPayment 120000 0 12) 1 120000 []).1.monthlyPayment
      = originalMonthlyPayment 120000 0 12 :=
  monthly_payment_unchanged_above_clamp 120000 0 12 1 120000 120000 0 [] [] rfl
    (by norm_num) (by norm_num [originalMonthlyPayment])

/-- C6: in a month where the loan is not paid off after extra-payment
application (post-extra balance above the epsilon), the recorded
interestPayment equals that post-extra balance times the monthly rate
(non-negative per the data model), in both the clamped and the regular
branch — extra payments save interest in the month they are applied. -/
theorem interest_computed_on_post_extra_balance (monthlyRate pay : ℚ) (i : ℤ)
    (balance balance1 applied : ℚ) (pending rest : List ExtraPayment)
    (happly : applyExtras i pending balance 0 = (balance1, applied, rest))
    (hb1 : 1 / 100 < balance1) (hr : 0 ≤ monthlyRate) :
    (monthStep monthlyRate pay i balance pending).1.interestPayment
      = balance1 * monthlyRate := by
  have hint : ¬ (balance1 * monthlyRate < 0) :=
    not_lt.mpr (mul_nonneg (by linarith) hr)
  simp only [monthStep, happly]
  rw [if_neg (not_le.mpr hb1)]
  split <;> simp [if_neg hint]

/-- C6, witness: a 1000 balance at monthly rate 1/100 records interest 10. -/
theorem interest_computed_on_post_extra_balance_witness :
    (monthStep (1 / 100) 50 1 1000 []).1.interestPayment = 1000 * (1 / 100) :=
  interest_computed_on_post_extra_balance (1 / 100) 50 1 1000 1000 0 [] [] rfl
    (by norm_num) (by norm_num)

/-- C7: with rate 0, principal 120000 and 12 months, the schedule has exactly
12 rows, every row has interestPayment 0 and principalPayment 10000, and the
last row's remainingBalance is 0. -/
theorem zero_rate_twelve_month_schedule :
    (calculateAmortization (some 120000) (some 0) (some 12) false []).schedule.length
      = 12 ∧
    (∀ row ∈ (calculateAmortization (some 120000) (some 0) (some 12) false []).schedule,
      row.interestPayment = 0 ∧ row.principalPayment = 10000) ∧
    (calculateAmortization (some 120000) (some 0) (some 12) false
        []).schedule.getLast?.map (fun row => row.remainingBalance) = some 0 := by
  norm_num [calculateAmortization, sortExtraPayments, List.insertionSort,
    List.orderedInsert, originalMonthlyPayment,
    calculateTotalInterestWithoutExtraPayments, baselineLoop, runMonths, monthStep,
    applyExtras]

/-- C8: for every invalid principal (non-positive or NaN) and likewise for a
non-positive or NaN term, the engine resets its outputs (empty schedule, zero
accumulated and saved interest) and the baseline calculator returns 0; both
are total functions, so no exception is involved. -/
theorem invalid_input_empty_schedule_zero_baseline (pOpt rOpt : Option ℚ)
    (tOpt : Option ℤ) (unitYears : Bool) (extras : List ExtraPayment)
    (h : pOpt = none ∨ (∃ p, pOpt = some p ∧ p ≤ 0) ∨ tOpt = none ∨
      (∃ t, tOpt = some t ∧ t ≤ 0)) :
    calculateAmortization pOpt rOpt tOpt unitYears extras = ⟨[], 0, 0⟩ ∧
    calculateTotalInterestWithoutExtraPayments pOpt rOpt
      (tOpt.map fun t => if unitYears then t * 12 else t) = 0 := by
  rcases h with rfl | ⟨p, rfl, hp⟩ | rfl | ⟨t, rfl, ht⟩
  · rcases rOpt with _ | rp <;> rcases tOpt with _ | t <;>
      simp [calculateAmortization, calculateTotalInterestWithoutExtraPayments]
  · rcases rOpt with _ | rp <;> rcases tOpt with _ | t <;>
      simp [calculateAmortization, calculateTotalInterestWithoutExtraPayments, hp]
  · rcases rOpt with _ | rp <;> rcases pOpt with _ | p <;>
      simp [calculateAmortization, calculateTotalInterestWithoutExtraPayments]
  · have hitm : (if unitYears then t * 12 else t) ≤ 0 := by
      rcases unitYears with _ | _
      · simpa using ht
      · simp only [if_pos rfl]
        omega
    rcases rOpt with _ | rp <;> rcases pOpt with _ | p
    · simp [calculateAmortization, calculateTotalInterestWithoutExtraPayments]
    · simp [calculateAmortization, calculateTotalInterestWithoutExtraPayments]
    · simp [calculateAmortization, calculateTotalInterestWithoutExtraPayments]
    · constructor
      · simp [calculateAmortization, hitm]
      · simp [calculateTotalInterestWithoutExtraPayments, hitm]

/-- C8, witness: principal −500 yields the empty engine result and baseline 0. -/
theorem invalid_input_empty_schedule_zero_baseline_witness :
    calculateAmortization (some (-500)) (some 5) (some 12) false [] = ⟨[], 0, 0⟩ ∧
    calculateTotalInterestWithoutExtraPayments (some (-500)) (some 5)
      ((some (12 : ℤ)).map fun t => if false then t * 12 else t) = 0 :=
  invalid_input_empty_schedule_zero_baseline (some (-500)) (some 5) (some 12) false []
    (Or.inr (Or.inl ⟨-500, rfl, by norm_num⟩))

/-- C9: with a term that parses to a number, the add-extra-payment operation
rejects exactly when the amount is NaN or non-positive, or the month is NaN,
non-positive, or above 2×totalMonths+1; every rejection produces a non-empty
message and leaves the payment list unchanged, and every accepted addition
appends exactly the one new payment carrying the fresh id. -/
theorem add_extra_payment_validation (amount : Option ℚ) (month : Option ℤ)
    (t : ℤ) (unitYears : Bool) (freshId : ℕ) (prev : List ExtraPayment) :
    ((amount = none ∨ (∃ a, amount = some a ∧ a ≤ 0) ∨ month = none ∨
        (∃ m, month = some m ∧ (m ≤ 0 ∨ (if unitYears then t * 12 else t) * 2 + 1 < m))) →
      (handleAddExtraPayment amount month (some t) unitYears freshId prev).1 = prev ∧
      (handleAddExtraPayment amount month (some t) unitYears freshId prev).2 ≠ "") ∧
    (∀ a m, amount = some a → month = some m → 0 < a → 0 < m →
        m ≤ (if unitYears then t * 12 else t) * 2 + 1 →
      handleAddExtraPayment amount month (some t) unitYears freshId prev
        = (prev ++ [⟨freshId, a, m⟩], "")) := by
  constructor
  · rintro (rfl | ⟨a, rfl, ha⟩ | rfl | ⟨m, rfl, hcase⟩)
    · exact ⟨rfl, invalidAmountMessage_ne_empty⟩
    · simp only [handleAddExtraPayment, if_pos ha]
      exact ⟨by trivial, invalidAmountMessage_ne_empty⟩
    · rcases amount with _ | a
      · exact ⟨rfl, invalidAmountMessage_ne_empty⟩
      · by_cases ha : a ≤ 0
        · simp only [handleAddExtraPayment, if_pos ha]
          exact ⟨by trivial, invalidAmountMessage_ne_empty⟩
        · simp only [handleAddExtraPayment, if_neg ha]
          exact ⟨by trivial, invalidMonthMessage_ne_empty _⟩
    · rcases amount with _ | a
      · exact ⟨rfl, invalidAmountMessage_ne_empty⟩
      · by_cases ha : a ≤ 0
        · simp only [handleAddExtraPayment, if_pos ha]
          exact ⟨by trivial, invalidAmountMessage_ne_empty⟩
        · by_cases hm0 : m ≤ 0
          · simp only [handleAddExtraPayment, if_neg ha, if_pos hm0]
            exact ⟨by trivial, invalidMonthMessage_ne_empty _⟩
          · rcases hcase with hm | hm
            · exact absurd hm hm0
            · simp only [handleAddExtraPayment, if_neg ha, if_neg hm0]
              dsimp only [Option.map]
              simp only [decide_eq_true_eq, if_pos hm]
              exact ⟨by trivial, invalidMonthMessage_ne_empty _⟩
  · intro a m ha hm hapos hmpos hbound
    subst ha hm
    simp only [handleAddExtraPayment, if_neg (not_le.mpr hapos),
      if_neg (not_le.mpr hmpos)]
    dsimp only [Option.map]
    simp only [decide_eq_true_eq, if_neg (not_lt.mpr hbound)]

/-- C9, witness: a valid addition appends the payment; a NaN amount is
rejected with a message and an unchanged list. -/
theorem add_extra_payment_validation_witness :
    handleAddExtraPayment (some 100) (some 3) (some 12) false 7 []
      = ([⟨7, 100, 3⟩], "") ∧
    (handleAddExtraPayment none (some 3) (some 12) false 7 []).1 = [] ∧
    (handleAddExtraPayment none (some 3) (some 12) false 7 []).2 ≠ "" :=
  ⟨(add_extra_payment_validation (some 100) (some 3) 12 false 7 []).2 100 3 rfl rfl
      (by norm_num) (by norm_num) (by norm_num),
   ((add_extra_payment_validation none (some 3) 12 false 7 []).1 (Or.inl rfl)).1,
   ((add_extra_payment_validation none (some 3) 12 false 7 []).1 (Or.inl rfl)).2⟩

/-- C10: when the loan-term input does not parse (NaN term), the upper-bound
check compares the month against NaN and is always false, so every positive
month with a valid amount passes validation and the payment is appended — the
documented upper bound is only enforced for a parsed term. -/
theorem add_extra_payment_nan_term_accepts_any_positive_month (amount : Option ℚ)
    (month : Option ℤ) (unitYears : Bool) (freshId : ℕ) (prev : List ExtraPayment)
    (a : ℚ) (m : ℤ) (ha : amount = some a) (hapos : 0 < a) (hm : month = some m)
    (hmpos : 0 < m) :
    handleAddExtraPayment amount month none unitYears freshId prev
      = (prev ++ [⟨freshId, a, m⟩], "") := by
  subst ha hm
  simp only [handleAddExtraPayment, if_neg (not_le.mpr hapos),
    if_neg (not_le.mpr hmpos)]
  dsimp only [Option.map]
  simp

/-- C10, witness: with an unparsable term, month 1000000 is accepted. -/
theorem add_extra_payment_nan_term_accepts_any_positive_month_witness :
    handleAddExtraPayment (some 100) (some 1000000) none false 7 []
      = ([⟨7, 100, 1000000⟩], "") :=
  add_extra_payment_nan_term_accepts_any_positive_month (some 100) (some 1000000)
    false 7 [] 100 1000000 rfl (by norm_num) rfl (by norm_num)

end LoanSim
